import Mathlib

/-!
Verification of the grid-scan image-diff application.

The development embeds the image-analysis pipeline of the repository:
the defect-fusion engine, the 200 px fixed-grid initialization, the
sequential cancelable scan loop (`runAnalysisWithFusion` in `App.tsx`),
the region similarity scorer (`compareRegionPair`), and the registration
crop computation (`alignAndCropImages`).  Pixel coordinates of fusion
rectangles are rationals (JS numbers behave as exact reals on the
values arising here); grid-cell coordinates are naturals, as produced
by the integer grid arithmetic of the source.  External OpenCV
primitives whose numeric output the claims do not depend on are
abstracted as an environment of fallible operations.
-/

/-- A defect rectangle `{x, y, w, h}` as used by the fusion engine of
`App.tsx` (fields named as in the source). -/
structure Rect where
  x : ℚ
  y : ℚ
  w : ℚ
  h : ℚ
  deriving DecidableEq, Repr

/-- `doRectsIntersect` from `App.tsx`: the separation test with a 5 px
tolerance.  `a.x > b.x + b.w + tolerance` is written with `<` flipped. -/
def doRectsIntersect (a b : Rect) : Bool :=
  !(decide (b.x + b.w + 5 < a.x) || decide (a.x + a.w + 5 < b.x) ||
    decide (b.y + b.h + 5 < a.y) || decide (a.y + a.h + 5 < b.y))

/-- `mergeRects` from `App.tsx`: axis-aligned bounding union. -/
def mergeRects (a b : Rect) : Rect :=
  let x := min a.x b.x
  let y := min a.y b.y
  let w := max (a.x + a.w) (b.x + b.w) - x
  let h := max (a.y + a.h) (b.y + b.h) - y
  ⟨x, y, w, h⟩

/-- Spec-side notion of touching: expanding one rectangle by the 5 px
tolerance on every side makes the two overlap, i.e. the rectangles are
not separated by more than the tolerance along either axis. -/
def specTouching (a b : Rect) : Prop :=
  a.x ≤ b.x + b.w + 5 ∧ b.x ≤ a.x + a.w + 5 ∧
  a.y ≤ b.y + b.h + 5 ∧ b.y ≤ a.y + a.h + 5

instance (a b : Rect) : Decidable (specTouching a b) := by
  unfold specTouching; infer_instance

/-- Spec-side axis-aligned bounding union: left/top are minima of the
two rectangles' left/top edges, right/bottom are maxima of the right/
bottom edges. -/
def specBoundingUnion (a b : Rect) : Rect where
  x := min a.x b.x
  y := min a.y b.y
  w := max (a.x + a.w) (b.x + b.w) - min a.x b.x
  h := max (a.y + a.h) (b.y + b.h) - min a.y b.y

/-- The inner `j` loop of the fusion pass in `App.tsx` for a fixed `i`:
scan the elements after position `i`, folding every touching rectangle
into the accumulator `a` (the `rects.splice(j, 1); j--` step keeps the
scan position), and report whether any merge happened. -/
def scanRow (a : Rect) : List Rect → Rect × List Rect × Bool
  | [] => (a, [], false)
  | x :: xs =>
    if doRectsIntersect a x then
      let r := scanRow (mergeRects a x) xs
      (r.1, r.2.1, true)
    else
      let r := scanRow a xs
      (r.1, x :: r.2.1, r.2.2)

lemma scanRow_no_merge (a : Rect) (xs : List Rect)
    (h : (scanRow a xs).2.2 = false) :
    (scanRow a xs).1 = a ∧ (scanRow a xs).2.1 = xs := by
  induction xs generalizing a with
  | nil => simp [scanRow]
  | cons x xs ih =>
    by_cases hx : doRectsIntersect a x
    · simp [scanRow, hx] at h
    · simp only [scanRow, hx, Bool.false_eq_true, if_false] at h ⊢
      rcases ih a h with ⟨h1, h2⟩
      exact ⟨h1, by rw [h2]⟩

lemma scanRow_length_le (a : Rect) (xs : List Rect) :
    (scanRow a xs).2.1.length ≤ xs.length := by
  induction xs generalizing a with
  | nil => simp [scanRow]
  | cons x xs ih =>
    by_cases hx : doRectsIntersect a x
    · simp only [scanRow, hx, if_true, List.length_cons]
      exact le_trans (ih (mergeRects a x)) (Nat.le_succ _)
    · simp only [scanRow, hx, Bool.false_eq_true, if_false, List.length_cons]
      exact Nat.succ_le_succ (ih a)

lemma scanRow_merge_length (a : Rect) (xs : List Rect)
    (h : (scanRow a xs).2.2 = true) :
    (scanRow a xs).2.1.length < xs.length := by
  induction xs generalizing a with
  | nil => simp [scanRow] at h
  | cons x xs ih =>
    by_cases hx : doRectsIntersect a x
    · simp only [scanRow, hx, if_true, List.length_cons]
      exact Nat.lt_succ_of_le (scanRow_length_le _ _)
    · simp only [scanRow, hx, Bool.false_eq_true, if_false,
        List.length_cons] at h ⊢
      exact Nat.succ_lt_succ (ih a h)

/-- One full pass of the outer `i` loop of the fusion algorithm. -/
def fusePass : List Rect → List Rect × Bool
  | [] => ([], false)
  | a :: rest =>
    let p := fusePass (scanRow a rest).2.1
    ((scanRow a rest).1 :: p.1, (scanRow a rest).2.2 || p.2)
termination_by rs => rs.length
decreasing_by
  exact Nat.lt_succ_of_le (scanRow_length_le _ _)

/-- The `while (merged)` loop of `App.tsx`, with explicit fuel.  Each
merging pass strictly shortens the list, so `length + 1` passes always
reach the fixed point (`fusePass_fuseLoop` below). -/
def fuseLoop : ℕ → List Rect → List Rect
  | 0, rs => rs
  | fuel + 1, rs =>
    let p := fusePass rs
    if p.2 then fuseLoop fuel p.1 else p.1

/-- `fuse`: repeat fusion passes until a pass performs no merge. -/
def fuse (rs : List Rect) : List Rect :=
  fuseLoop (rs.length + 1) rs

lemma fusePass_nil : fusePass [] = ([], false) := by
  simp [fusePass]

lemma fusePass_cons (a : Rect) (rest : List Rect) :
    fusePass (a :: rest) =
      ((scanRow a rest).1 :: (fusePass (scanRow a rest).2.1).1,
       (scanRow a rest).2.2 || (fusePass (scanRow a rest).2.1).2) := by
  rw [fusePass]

lemma fusePass_no_merge (rs : List Rect) (h : (fusePass rs).2 = false) :
    (fusePass rs).1 = rs := by
  induction rs using fusePass.induct with
  | case1 => simp [fusePass_nil]
  | case2 a rest ih =>
    simp only [fusePass_cons, Bool.or_eq_false_iff] at h ⊢
    rcases h with ⟨h1, h2⟩
    rcases scanRow_no_merge a rest h1 with ⟨ha, hrest⟩
    rw [hrest] at ih h2
    simp only [ha, hrest, ih h2]

lemma fusePass_length_le (rs : List Rect) :
    (fusePass rs).1.length ≤ rs.length := by
  induction rs using fusePass.induct with
  | case1 => simp [fusePass_nil]
  | case2 a rest ih =>
    simp only [fusePass_cons, List.length_cons]
    have hle := scanRow_length_le a rest
    omega

lemma fusePass_merge_length (rs : List Rect) (h : (fusePass rs).2 = true) :
    (fusePass rs).1.length < rs.length := by
  induction rs using fusePass.induct with
  | case1 => rw [fusePass_nil] at h; simp at h
  | case2 a rest ih =>
    simp only [fusePass_cons, List.length_cons, Bool.or_eq_true] at h ⊢
    have hle1 := scanRow_length_le a rest
    have hle2 := fusePass_length_le (scanRow a rest).2.1
    rcases h with h1 | h2
    · have hlt := scanRow_merge_length a rest h1
      omega
    · have hlt := ih h2
      omega

lemma fuseLoop_succ (fuel : ℕ) (rs : List Rect) :
    fuseLoop (fuel + 1) rs =
      if (fusePass rs).2 then fuseLoop fuel (fusePass rs).1
      else (fusePass rs).1 := by
  simp only [fuseLoop]

/-- Reaching the fixed point: with fuel exceeding the list length, the
result of `fuseLoop` is a fixed point of `fusePass`. -/
lemma fusePass_fuseLoop (fuel : ℕ) :
    ∀ rs : List Rect, rs.length < fuel →
      fusePass (fuseLoop fuel rs) = (fuseLoop fuel rs, false) := by
  induction fuel with
  | zero => intro rs h; omega
  | succ n ih =>
    intro rs h
    rw [fuseLoop_succ]
    cases hm : (fusePass rs).2 with
    | true =>
      rw [if_pos rfl]
      have hlt := fusePass_merge_length rs hm
      exact ih _ (by omega)
    | false =>
      rw [if_neg Bool.false_ne_true]
      have heq := fusePass_no_merge rs hm
      rw [heq, Prod.ext_iff]
      exact ⟨heq, hm⟩

lemma fuseLoop_of_fixed (rs : List Rect) (h : fusePass rs = (rs, false)) :
    ∀ fuel, fuseLoop fuel rs = rs
  | 0 => rfl
  | fuel + 1 => by rw [fuseLoop_succ, h]; simp

/-- C9: `fuse` is idempotent: `fuse(fuse(R)) == fuse(R)` for every list
of rectangles `R`. -/
theorem fuse_idempotent (rs : List Rect) : fuse (fuse rs) = fuse rs := by
  have hfix := fusePass_fuseLoop (rs.length + 1) rs (Nat.lt_succ_self _)
  show fuseLoop ((fuse rs).length + 1) (fuse rs) = fuse rs
  rw [fuseLoop_succ]
  unfold fuse at hfix ⊢
  rw [hfix]
  simp

lemma fuse_pair_of_intersect (a b : Rect) (h : doRectsIntersect a b = true) :
    fuse [a, b] = [mergeRects a b] := by
  have hs : scanRow a [b] = (mergeRects a b, [], true) := by
    simp [scanRow, h]
  have hp : fusePass [a, b] = ([mergeRects a b], true) := by
    simp [fusePass_cons, hs, fusePass_nil]
  have h1 : fusePass [mergeRects a b] = ([mergeRects a b], false) := by
    simp [fusePass_cons, fusePass_nil, scanRow]
  show fuseLoop (2 + 1) [a, b] = [mergeRects a b]
  rw [fuseLoop_succ, hp]
  simpa using fuseLoop_of_fixed _ h1 2

lemma fuse_pair_of_no_intersect (a b : Rect)
    (h : doRectsIntersect a b = false) : fuse [a, b] = [a, b] := by
  have hp : fusePass [a, b] = ([a, b], false) := by
    simp [fusePass_cons, fusePass_nil, scanRow, h]
  show fuseLoop (2 + 1) [a, b] = [a, b]
  rw [fuseLoop_succ, hp]
  simp

/-- C1: for all rectangles `A` and `B`, `fuse([A, B])` merges them into
exactly one rectangle, the axis-aligned bounding union, iff `A` and `B`
are not separated by more than the 5 px tolerance along either axis
(that is, iff `doRectsIntersect` holds); otherwise both rectangles are
returned unmerged. -/
theorem fuse_two_rects (a b : Rect) :
    (specTouching a b ↔ doRectsIntersect a b = true) ∧
    mergeRects a b = specBoundingUnion a b ∧
    (specTouching a b → fuse [a, b] = [mergeRects a b]) ∧
    (¬ specTouching a b → fuse [a, b] = [a, b]) := by
  have hiff : specTouching a b ↔ doRectsIntersect a b = true := by
    unfold specTouching doRectsIntersect
    simp only [Bool.not_eq_true', Bool.or_eq_false_iff,
      decide_eq_false_iff_not, not_lt]
    tauto
  refine ⟨hiff, rfl, ?_, ?_⟩
  · intro h
    exact fuse_pair_of_intersect a b (hiff.mp h)
  · intro h
    apply fuse_pair_of_no_intersect
    cases hb : doRectsIntersect a b
    · rfl
    · exact absurd (hiff.mpr hb) h

/-- Witness for C1 at concrete rectangles: a 2 px gap (within tolerance)
merges, a distant pair stays unmerged. -/
theorem fuse_two_rects_witness :
    (specTouching ⟨0, 0, 10, 10⟩ ⟨12, 0, 5, 5⟩ ↔
      doRectsIntersect ⟨0, 0, 10, 10⟩ ⟨12, 0, 5, 5⟩ = true) ∧
    fuse [⟨0, 0, 10, 10⟩, ⟨12, 0, 5, 5⟩] =
      [mergeRects ⟨0, 0, 10, 10⟩ ⟨12, 0, 5, 5⟩] ∧
    fuse [⟨0, 0, 10, 10⟩, ⟨100, 100, 5, 5⟩] =
      [⟨0, 0, 10, 10⟩, ⟨100, 100, 5, 5⟩] :=
  ⟨(fuse_two_rects _ _).1,
   (fuse_two_rects ⟨0, 0, 10, 10⟩ ⟨12, 0, 5, 5⟩).2.2.1
     (by with_unfolding_all decide),
   (fuse_two_rects ⟨0, 0, 10, 10⟩ ⟨100, 100, 5, 5⟩).2.2.2
     (by with_unfolding_all decide)⟩

/-- Status of a grid cell, as in `types.ts` (the `ai_verifying` state is
unused by the fixed-grid scanner). -/
inductive CellStatus
  | pending
  | analyzing
  | ok
  | defect
  | ai_verifying
  deriving DecidableEq, Repr

/-- A grid cell as created by `runAnalysisWithFusion` in `App.tsx`. -/
structure GridCell where
  id : String
  level : ℕ
  x : ℕ
  y : ℕ
  width : ℕ
  height : ℕ
  score : ℤ
  status : CellStatus
  deriving DecidableEq, Repr

/-- The fixed 200 px cell size of the grid scanner. -/
def fixedSize : ℕ := 200

/-- `Math.ceil(scanWidth / fixedSize)`. -/
def gridCols (scanW : ℕ) : ℕ := (scanW + fixedSize - 1) / fixedSize

/-- `Math.ceil(scanHeight / fixedSize)`. -/
def gridRows (scanH : ℕ) : ℕ := (scanH + fixedSize - 1) / fixedSize

/-- The cell of row `r`, column `c`: position `(c*200, r*200)`, width
and height clamped to the remaining image size at the edges. -/
def mkCell (scanW scanH r c : ℕ) : GridCell where
  id := "cell-" ++ toString r ++ "-" ++ toString c
  level := 1
  x := c * fixedSize
  y := r * fixedSize
  width := min fixedSize (scanW - c * fixedSize)
  height := min fixedSize (scanH - r * fixedSize)
  score := 0
  status := .pending

/-- Grid initialization: row-major list of all cells. -/
def gridCells (scanW scanH : ℕ) : List GridCell :=
  (List.range (gridRows scanH)).flatMap fun r =>
    (List.range (gridCols scanW)).map fun c => mkCell scanW scanH r c

/-- Membership of the point `(p, q)` in a cell's rectangle. -/
def cellContains (cell : GridCell) (p q : ℕ) : Prop :=
  cell.x ≤ p ∧ p < cell.x + cell.width ∧
  cell.y ≤ q ∧ q < cell.y + cell.height

instance (cell : GridCell) (p q : ℕ) : Decidable (cellContains cell p q) := by
  unfold cellContains; infer_instance

lemma mem_gridCells {W H : ℕ} {cell : GridCell} :
    cell ∈ gridCells W H ↔
      ∃ r, r < gridRows H ∧ ∃ c, c < gridCols W ∧
        cell = mkCell W H r c := by
  simp only [gridCells, List.mem_flatMap, List.mem_map, List.mem_range]
  constructor
  · rintro ⟨r, hr, c, hc, rfl⟩
    exact ⟨r, hr, c, hc, rfl⟩
  · rintro ⟨r, hr, c, hc, rfl⟩
    exact ⟨r, hr, c, hc, rfl⟩

/-- C3: the fixed-size 200×200 grid initialization partitions the
working rectangle exactly: every point of the `W × H` rectangle lies in
exactly one cell, every cell stays inside the image bounds (right and
bottom edge cells are clamped), and every cell has width ≥ 1 and
height ≥ 1. -/
theorem grid_partition (W H p q : ℕ) (hp : p < W) (hq : q < H) :
    (∃ cell ∈ gridCells W H, cellContains cell p q) ∧
    (∀ c1 ∈ gridCells W H, ∀ c2 ∈ gridCells W H,
      cellContains c1 p q → cellContains c2 p q → c1 = c2) ∧
    (∀ cell ∈ gridCells W H,
      cell.x + cell.width ≤ W ∧ cell.y + cell.height ≤ H ∧
      1 ≤ cell.width ∧ 1 ≤ cell.height) := by
  refine ⟨?_, ?_, ?_⟩
  · refine ⟨mkCell W H (q / fixedSize) (p / fixedSize), ?_, ?_⟩
    · rw [mem_gridCells]
      refine ⟨q / fixedSize, ?_, p / fixedSize, ?_, rfl⟩
      · unfold gridRows fixedSize
        omega
      · unfold gridCols fixedSize
        omega
    · unfold cellContains mkCell fixedSize
      refine ⟨?_, ?_, ?_, ?_⟩ <;> simp only [] <;> omega
  · intro c1 hc1 c2 hc2 h1 h2
    rw [mem_gridCells] at hc1 hc2
    obtain ⟨r1, hr1, cc1, hcc1, rfl⟩ := hc1
    obtain ⟨r2, hr2, cc2, hcc2, rfl⟩ := hc2
    simp only [cellContains, mkCell, fixedSize] at h1 h2
    simp only [gridRows, gridCols, fixedSize] at hr1 hr2 hcc1 hcc2
    have hrc : r1 = r2 ∧ cc1 = cc2 := by omega
    rw [hrc.1, hrc.2]
  · intro cell hcell
    rw [mem_gridCells] at hcell
    obtain ⟨r, hr, c, hc, rfl⟩ := hcell
    unfold mkCell
    unfold gridRows fixedSize at hr
    unfold gridCols fixedSize at hc
    refine ⟨?_, ?_, ?_, ?_⟩ <;> simp only [] <;> unfold fixedSize <;> omega

/-- Witness for C3 on a concrete 450×250 image and the point
`(430, 210)` inside the bottom-right clamped cell. -/
theorem grid_partition_witness :
    (∃ cell ∈ gridCells 450 250, cellContains cell 430 210) ∧
    (∀ c1 ∈ gridCells 450 250, ∀ c2 ∈ gridCells 450 250,
      cellContains c1 430 210 → cellContains c2 430 210 → c1 = c2) ∧
    (∀ cell ∈ gridCells 450 250,
      cell.x + cell.width ≤ 450 ∧ cell.y + cell.height ≤ 250 ∧
      1 ≤ cell.width ∧ 1 ≤ cell.height) :=
  grid_partition 450 250 430 210 (by decide) (by decide)

/-- A decoded pixel matrix (`cv.Mat`): `rows × cols` pixels in row-major
order, each pixel a list of channel values (RGBA for decoded images). -/
structure Mat where
  rows : ℕ
  cols : ℕ
  channels : ℕ
  data : List (List ℚ)
  deriving DecidableEq, Repr

/-- An error thrown by an OpenCV primitive (caught by the `try` block of
`compareRegionPair`). -/
inductive CvErr
  | err
  deriving DecidableEq, Repr

/-- OpenCV `COLOR_RGBA2GRAY` per-pixel weights `0.299 R + 0.587 G + 0.114 B`. -/
def grayOfPixel (p : List ℚ) : ℚ :=
  (299 * p.headD 0 + 587 * (p.drop 1).headD 0 + 114 * (p.drop 2).headD 0) / 1000

/-- `cv.cvtColor(m, COLOR_RGBA2GRAY)`. -/
def cvtColorGray (m : Mat) : Mat :=
  { m with channels := 1, data := m.data.map fun p => [grayOfPixel p] }

/-- The squared grayscale standard deviation computed by
`cv.meanStdDev`.  The source compares `deviation < 10`; since both sides
are non-negative that test is exactly `variance < 100`, which avoids the
square root. -/
def grayVariance (m : Mat) : ℚ :=
  let g := (cvtColorGray m).data.map fun p => p.headD 0
  let n : ℚ := (g.length : ℕ)
  let mean := g.sum / n
  (g.map fun v => (v - mean) ^ 2).sum / n

/-- `cv.threshold(-, -, t, 255, THRESH_BINARY)`: strictly above the
threshold becomes 255, otherwise 0. -/
def thresholdBinary (t : ℚ) (m : Mat) : Mat :=
  { m with data := m.data.map fun p => p.map fun v => if t < v then 255 else 0 }

/-- `cv.countNonZero` on a single-channel matrix. -/
def countNonZero (m : Mat) : ℕ :=
  (m.data.map fun p => p.headD 0).countP fun v => decide (v ≠ 0)

/-- The OpenCV environment seen by `compareRegionPair`: `ready` is
whether `waitForOpenCV` found `window.cv`, and the numeric primitives
whose output the verified properties do not depend on are abstract,
fallible operations (any of them may throw, which the source catches). -/
structure CvEnv where
  ready : Bool
  gaussianBlur : Mat → Except CvErr Mat
  matchTemplate : Mat → Mat → Except CvErr Mat
  minMaxLoc : Mat → Except CvErr (ℚ × ℕ × ℕ)
  roi : Mat → ℕ → ℕ → ℕ → ℕ → Except CvErr Mat
  absdiff : Mat → Mat → Except CvErr Mat

/-- The `try` block of `compareRegionPair` (`geminiService.ts`): size
precondition, featureless shortcut, blurred template matching, and the
absolute-difference penalty.  `minMaxLoc` yields `(maxVal, maxLoc.x,
maxLoc.y)`. -/
def compareBody (env : CvEnv) (t s : Mat) : Except CvErr ℤ :=
  if s.cols < t.cols ∨ s.rows < t.rows then .ok 0
  else if grayVariance t < 100 then .ok 100
  else
    (env.gaussianBlur t).bind fun blurredTemplate =>
    (env.gaussianBlur s).bind fun blurredSearch =>
    (env.matchTemplate blurredSearch blurredTemplate).bind fun result =>
    (env.minMaxLoc result).bind fun mm =>
    (env.roi s mm.2.1 mm.2.2 t.cols t.rows).bind fun alignedTestMat =>
    (env.gaussianBlur alignedTestMat).bind fun alignedTestBlurred =>
    (env.absdiff blurredTemplate alignedTestBlurred).bind fun diffMat =>
      let matchScore := max 0 mm.1 * 100
      let diffBinary := thresholdBinary 45 (cvtColorGray diffMat)
      let nonZero := countNonZero diffBinary
      let diffFrac := (nonZero : ℚ) / ((t.cols * t.rows : ℕ) : ℚ)
      let penalty := if 1 / 50 < diffFrac then diffFrac * 100 * 2 else 0
      Except.ok (round (max 0 (min 100 (matchScore - penalty))))

/-- `compareRegionPair`: returns 0 when OpenCV is not ready, otherwise
runs the body and maps any caught error to 0. -/
def compareRegionPair (env : CvEnv) (t s : Mat) : ℤ :=
  if env.ready then
    match compareBody env t s with
    | .ok v => v
    | .error _ => 0
  else 0

lemma round_clamp_mem (q : ℚ) :
    0 ≤ round (max 0 (min 100 q)) ∧ round (max 0 (min 100 q)) ≤ 100 := by
  have h0 : (0 : ℚ) ≤ max 0 (min 100 q) := le_max_left _ _
  have h100 : max 0 (min 100 q) ≤ 100 :=
    max_le (by norm_num) (min_le_left _ _)
  rw [round_eq]
  constructor
  · exact Int.le_floor.mpr (by push_cast; linarith)
  · have hlt : ⌊max 0 (min 100 q) + 1 / 2⌋ < 101 :=
      Int.floor_lt.mpr (by push_cast; linarith)
    omega

lemma compareBody_ok_range (env : CvEnv) (t s : Mat) (v : ℤ)
    (h : compareBody env t s = .ok v) : 0 ≤ v ∧ v ≤ 100 := by
  unfold compareBody at h
  split_ifs at h with h1 h2
  · cases h
    omega
  · cases h
    omega
  · rcases hb1 : env.gaussianBlur t with e | blurredTemplate <;> rw [hb1] at h <;>
      simp only [Except.bind] at h
    · cases h
    rcases hb2 : env.gaussianBlur s with e | blurredSearch <;> rw [hb2] at h <;>
      simp only [Except.bind] at h
    · cases h
    rcases hb3 : env.matchTemplate blurredSearch blurredTemplate with e | result <;>
      rw [hb3] at h <;> simp only [Except.bind] at h
    · cases h
    rcases hb4 : env.minMaxLoc result with e | mm <;> rw [hb4] at h <;>
      simp only [Except.bind] at h
    · cases h
    rcases hb5 : env.roi s mm.2.1 mm.2.2 t.cols t.rows with e | alignedTestMat <;>
      rw [hb5] at h <;> simp only [Except.bind] at h
    · cases h
    rcases hb6 : env.gaussianBlur alignedTestMat with e | alignedTestBlurred <;>
      rw [hb6] at h <;> simp only [Except.bind] at h
    · cases h
    rcases hb7 : env.absdiff blurredTemplate alignedTestBlurred with e | diffMat <;>
      rw [hb7] at h <;> simp only [Except.bind] at h
    · cases h
    cases h
    exact round_clamp_mem _

/-- C2: for every template and search-window image, the score is an
integer in `[0, 100]`; and whenever the search window is smaller than
the template in either dimension the score is exactly 0. -/
theorem score_range (env : CvEnv) (t s : Mat) :
    (0 ≤ compareRegionPair env t s ∧ compareRegionPair env t s ≤ 100) ∧
    (s.cols < t.cols ∨ s.rows < t.rows → compareRegionPair env t s = 0) := by
  constructor
  · unfold compareRegionPair
    split_ifs with hr
    · rcases hb : compareBody env t s with e | v
      · norm_num
      · simpa using compareBody_ok_range env t s v hb
    · norm_num
  · intro hsmall
    unfold compareRegionPair
    split_ifs with hr
    · have hb : compareBody env t s = .ok 0 := by
        unfold compareBody
        rw [if_pos hsmall]
      rw [hb]
    · rfl

/-- Status classification in the scan loop of `App.tsx`:
`score < 85 ? 'defect' : 'ok'`. -/
def classifyScore (s : ℤ) : CellStatus :=
  if s < 85 then .defect else .ok

/-- STEP 3 of `runAnalysisWithFusion`: the sequential scan loop.
`sched i` is the value of the abort flag `abortRef.current` at the check
opening iteration `i` (the flag is only ever set during a scan, never
cleared); `score i` is the value `compareRegionPair` returns for cell
`i`.  Returns whether the loop ran to completion together with the cell
list as the loop left it: an abort returns immediately, leaving every
remaining cell untouched. -/
def scanCellsFrom (sched : ℕ → Bool) (score : ℕ → ℤ) :
    ℕ → List GridCell → Bool × List GridCell
  | _, [] => (true, [])
  | i, c :: rest =>
    if sched i then (false, c :: rest)
    else
      let r := scanCellsFrom sched score (i + 1) rest
      (r.1, { c with score := score i, status := classifyScore (score i) } :: r.2)

/-- STEP 4 of `runAnalysisWithFusion`: defect cells are turned into
plain rectangles before fusion. -/
def defectRects (cells : List GridCell) : List Rect :=
  (cells.filter fun c => c.status == CellStatus.defect).map
    fun c => ⟨(c.x : ℚ), (c.y : ℚ), (c.width : ℚ), (c.height : ℚ)⟩

/-- A Final Defect as published by `setFinalDefects`. -/
structure FinalDefect where
  id : String
  x : ℚ
  y : ℚ
  width : ℚ
  height : ℚ
  deriving DecidableEq, Repr

/-- `rects.map((r, i) => ({id: final-i, x, y, width, height}))`. -/
def finalizeDefects (rects : List Rect) : List FinalDefect :=
  rects.mapIdx fun i r => ⟨"final-" ++ toString i, r.x, r.y, r.w, r.h⟩

/-- The observable outcome of STEP 3 and STEP 4: the grid-cell list, the
published Final Defect list (cleared at scan start, so empty unless
fusion publishes), and whether fusion ran. -/
structure ScanOutcome where
  cells : List GridCell
  finalDefects : List FinalDefect
  fusionRan : Bool
  deriving DecidableEq, Repr

/-- STEP 3 followed by STEP 4 of `runAnalysisWithFusion`: run the scan
loop; on completion check the abort flag once more (check number `n` on
an `n`-cell grid) and fuse the defect cells; any observed abort returns
with the Final Defect list still empty and without running fusion. -/
def runScan (sched : ℕ → Bool) (score : ℕ → ℤ) (cells : List GridCell) :
    ScanOutcome :=
  let r := scanCellsFrom sched score 0 cells
  if r.1 && !(sched cells.length) then
    ⟨r.2, finalizeDefects (fuse (defectRects r.2)), true⟩
  else
    ⟨r.2, [], false⟩

lemma scanCellsFrom_abort (score : ℕ → ℤ) (k : ℕ) :
    ∀ (cells : List GridCell) (i : ℕ), i ≤ k → k < i + cells.length →
      (scanCellsFrom (fun j => decide (k ≤ j)) score i cells).1 = false ∧
      (scanCellsFrom (fun j => decide (k ≤ j)) score i cells).2.length =
        cells.length ∧
      (scanCellsFrom (fun j => decide (k ≤ j)) score i cells).2.drop (k - i) =
        cells.drop (k - i) := by
  intro cells
  induction cells with
  | nil =>
    intro i h1 h2
    simp only [List.length_nil] at h2
    omega
  | cons c rest ih =>
    intro i h1 h2
    by_cases hik : k ≤ i
    · have hi : i = k := le_antisymm h1 hik
      subst hi
      simp [scanCellsFrom]
    · have hsched : decide (k ≤ i) = false := by
        simp only [decide_eq_false_iff_not]
        omega
      simp only [scanCellsFrom, hsched, Bool.false_eq_true, if_false,
        List.length_cons]
      obtain ⟨ha, hb, hc⟩ := ih (i + 1) (by omega)
        (by simp only [List.length_cons] at h2; omega)
      refine ⟨ha, by rw [hb], ?_⟩
      have hki : k - i = (k - (i + 1)) + 1 := by omega
      rw [hki, List.drop_succ_cons, List.drop_succ_cons]
      exact hc

/-- C4: once an abort is requested mid-scan — the flag first reads true
at the check opening iteration `k`, i.e. after `k` cells completed — the
loop returns before touching any further cell, fusion never runs, and
the Final Defect list stays empty. -/
theorem abort_semantics (cells : List GridCell) (score : ℕ → ℤ) (k : ℕ)
    (hk : k < cells.length) :
    (runScan (fun j => decide (k ≤ j)) score cells).finalDefects = [] ∧
    (runScan (fun j => decide (k ≤ j)) score cells).fusionRan = false ∧
    (runScan (fun j => decide (k ≤ j)) score cells).cells.length =
      cells.length ∧
    (runScan (fun j => decide (k ≤ j)) score cells).cells.drop k =
      cells.drop k := by
  obtain ⟨h1, h2, h3⟩ :=
    scanCellsFrom_abort score k cells 0 (Nat.zero_le _) (by omega)
  rw [Nat.sub_zero] at h3
  simp only [runScan, h1, Bool.false_and, Bool.false_eq_true, if_false]
  exact ⟨trivial, trivial, h2, h3⟩

/-- Witness for C4: a 300×100 image gives a 2-cell grid; aborting after
cell 1 leaves the second cell pending and publishes nothing. -/
theorem abort_semantics_witness :
    (runScan (fun j => decide (1 ≤ j)) (fun _ => 90)
      (gridCells 300 100)).finalDefects = [] ∧
    (runScan (fun j => decide (1 ≤ j)) (fun _ => 90)
      (gridCells 300 100)).fusionRan = false ∧
    (runScan (fun j => decide (1 ≤ j)) (fun _ => 90)
      (gridCells 300 100)).cells.length = (gridCells 300 100).length ∧
    (runScan (fun j => decide (1 ≤ j)) (fun _ => 90)
      (gridCells 300 100)).cells.drop 1 = (gridCells 300 100).drop 1 :=
  abort_semantics (gridCells 300 100) (fun _ => 90) 1 (by decide)

/-- A flat 2×2 RGBA template (every pixel equal): grayscale variance 0,
below the low-texture threshold. -/
def flatTemplate : Mat :=
  ⟨2, 2, 4, [[7, 7, 7, 255], [7, 7, 7, 255], [7, 7, 7, 255], [7, 7, 7, 255]]⟩

/-- A 2×2 RGBA search window of the same size as `flatTemplate`. -/
def flatSearch : Mat :=
  ⟨2, 2, 4, [[9, 9, 9, 255], [9, 9, 9, 255], [9, 9, 9, 255], [9, 9, 9, 255]]⟩

/-- A 1×1 search window, smaller than `flatTemplate` in both
dimensions. -/
def tinySearch : Mat := ⟨1, 1, 4, [[0, 0, 0, 255]]⟩

/-- A textured 1×2 template: grayscale values 0 and 255, variance far
above the low-texture threshold. -/
def texturedTemplate : Mat :=
  ⟨1, 2, 4, [[0, 0, 0, 255], [255, 255, 255, 255]]⟩

/-- An environment with OpenCV loaded whose primitives all succeed. -/
def okEnv : CvEnv where
  ready := true
  gaussianBlur := fun m => .ok m
  matchTemplate := fun _ _ => .ok ⟨1, 1, 1, [[1]]⟩
  minMaxLoc := fun _ => .ok (1, 0, 0)
  roi := fun m _ _ _ _ => .ok m
  absdiff := fun a _ => .ok a

/-- An environment where `waitForOpenCV` timed out. -/
def downEnv : CvEnv where
  ready := false
  gaussianBlur := fun m => .ok m
  matchTemplate := fun _ _ => .ok ⟨1, 1, 1, [[1]]⟩
  minMaxLoc := fun _ => .ok (1, 0, 0)
  roi := fun m _ _ _ _ => .ok m
  absdiff := fun a _ => .ok a

/-- An environment whose Gaussian blur throws, exercising the `catch`
branch of `compareRegionPair`. -/
def failEnv : CvEnv where
  ready := true
  gaussianBlur := fun _ => .error .err
  matchTemplate := fun _ _ => .ok ⟨1, 1, 1, [[1]]⟩
  minMaxLoc := fun _ => .ok (1, 0, 0)
  roi := fun m _ _ _ _ => .ok m
  absdiff := fun a _ => .ok a

/-- Witness for C2 at a concrete environment: the bounds hold, and a
1×1 search window against a 2×2 template scores exactly 0. -/
theorem score_range_witness :
    (0 ≤ compareRegionPair okEnv flatTemplate tinySearch ∧
      compareRegionPair okEnv flatTemplate tinySearch ≤ 100) ∧
    compareRegionPair okEnv flatTemplate tinySearch = 0 :=
  ⟨(score_range okEnv flatTemplate tinySearch).1,
   (score_range okEnv flatTemplate tinySearch).2 (by decide)⟩

/-- C8 counterexample: `flatTemplate` has grayscale standard deviation 0
(variance 0 < 100, i.e. deviation < 10), yet against the smaller search
window `tinySearch` the score is 0, not 100 — the size precondition is
checked before the featureless shortcut. -/
theorem low_texture_cex :
    grayVariance flatTemplate < 100 ∧
    compareRegionPair okEnv flatTemplate tinySearch = 0 := by
  constructor
  · with_unfolding_all decide
  · with_unfolding_all decide

/-- C8 amended: for every template whose grayscale standard deviation is
below 10 (variance < 100) and every search window at least as large as
the template in both dimensions, the score is 100 (OpenCV available). -/
theorem low_texture_scores_100 (env : CvEnv) (t s : Mat)
    (hready : env.ready = true) (hw : t.cols ≤ s.cols) (hh : t.rows ≤ s.rows)
    (hvar : grayVariance t < 100) :
    compareRegionPair env t s = 100 := by
  unfold compareRegionPair
  rw [if_pos hready]
  have hb : compareBody env t s = .ok 100 := by
    unfold compareBody
    rw [if_neg (by omega), if_pos hvar]
  rw [hb]

/-- Witness for the amended C8: the flat template against an
equal-sized search window scores 100. -/
theorem low_texture_scores_100_witness :
    compareRegionPair okEnv flatTemplate flatSearch = 100 :=
  low_texture_scores_100 okEnv flatTemplate flatSearch rfl (by decide)
    (by decide) (by with_unfolding_all decide)

lemma scanCellsFrom_no_abort (score : ℕ → ℤ) :
    ∀ (cells : List GridCell) (i : ℕ),
      (scanCellsFrom (fun _ => false) score i cells).1 = true ∧
      (scanCellsFrom (fun _ => false) score i cells).2.length =
        cells.length := by
  intro cells
  induction cells with
  | nil => intro i; simp [scanCellsFrom]
  | cons c rest ih =>
    intro i
    simp only [scanCellsFrom, Bool.false_eq_true, if_false,
      List.length_cons]
    exact ⟨(ih (i + 1)).1, by rw [(ih (i + 1)).2]⟩

/-- C10: the region scorer is total at its interface: when OpenCV is
unavailable it returns 0, when the body throws anywhere the catch
returns 0, the orchestrator classifies a 0 score as a defect
(`0 < 85`), and an abort-free scan processes every cell to completion
rather than failing. -/
theorem scorer_never_raises (env : CvEnv) (t s : Mat) (e : CvErr)
    (score : ℕ → ℤ) (cells : List GridCell) :
    (env.ready = false → compareRegionPair env t s = 0) ∧
    (compareBody env t s = .error e → compareRegionPair env t s = 0) ∧
    classifyScore 0 = CellStatus.defect ∧
    (scanCellsFrom (fun _ => false) score 0 cells).1 = true ∧
    (scanCellsFrom (fun _ => false) score 0 cells).2.length = cells.length := by
  refine ⟨?_, ?_, rfl, (scanCellsFrom_no_abort score cells 0).1,
    (scanCellsFrom_no_abort score cells 0).2⟩
  · intro h
    unfold compareRegionPair
    rw [if_neg]
    rw [h]
    exact Bool.false_ne_true
  · intro h
    unfold compareRegionPair
    split_ifs with hr
    · rw [h]
    · rfl

/-- Witness for C10: OpenCV missing at a concrete input gives 0; a
throwing Gaussian blur on a textured template gives 0 through the
catch; 0 is classified as a defect. -/
theorem scorer_never_raises_witness :
    compareRegionPair downEnv flatTemplate flatSearch = 0 ∧
    compareRegionPair failEnv texturedTemplate texturedTemplate = 0 ∧
    classifyScore 0 = CellStatus.defect :=
  ⟨(scorer_never_raises downEnv flatTemplate flatSearch CvErr.err
      (fun _ => 0) []).1 rfl,
   (scorer_never_raises failEnv texturedTemplate texturedTemplate CvErr.err
      (fun _ => 0) []).2.1 (by with_unfolding_all rfl),
   (scorer_never_raises downEnv flatTemplate flatSearch CvErr.err
      (fun _ => 0) []).2.2.1⟩

/-- An error of `alignAndCropImages`: the pre-`try` throw when OpenCV is
missing, or any error raised inside the `try` block. -/
inductive AlignErr
  | opencvNotLoaded
  | innerErr
  deriving DecidableEq, Repr

/-- A successful alignment result: the shared crop dimensions (the
cropped image payloads are opaque to the orchestrator's control flow). -/
structure AlignOk where
  width : ℕ
  height : ℕ
  deriving DecidableEq, Repr

/-- `alignAndCropImages` (`geminiService.ts`): the
`throw new Error("OpenCV not loaded")` sits before the `try` block, so
it propagates to the caller; every error inside the `try` is caught and
mapped to `null` (`none`).  `body` stands for the outcome of the
OpenCV alignment work inside the `try`. -/
def alignAndCropModel (ready : Bool) (body : Except AlignErr AlignOk) :
    Except AlignErr (Option AlignOk) :=
  if ready then
    match body with
    | .ok r => .ok (some r)
    | .error _ => .ok none
  else .error .opencvNotLoaded

/-- STEP 1 of `runAnalysisWithFusion`: the `alignAndCropImages` call
sits in its own `try/catch`; a thrown error is logged
(`"Alignment skipped due to error"`) and the scan proceeds with the
original reference dimensions, exactly as a `null` result does. -/
def alignmentPhase (refW refH : ℕ)
    (outcome : Except AlignErr (Option AlignOk)) : ℕ × ℕ :=
  match outcome with
  | .ok (some r) => (r.width, r.height)
  | .ok none => (refW, refH)
  | .error _ => (refW, refH)

/-- `runAnalysisWithFusion` from STEP 1 on: alignment phase, grid
initialization on the working dimensions, then scan and fusion. -/
def runPipeline (refW refH : ℕ) (outcome : Except AlignErr (Option AlignOk))
    (sched : ℕ → Bool) (score : ℕ → ℤ) : ScanOutcome :=
  let d := alignmentPhase refW refH outcome
  runScan sched score (gridCells d.1 d.2)

/-- C7 counterexample: with OpenCV unavailable `alignAndCropImages`
does throw, but the orchestrator catches the error and the scan still
proceeds on the original 400×200 image — the 2-cell grid is fully
scanned and fusion runs — contradicting "the scan cannot proceed". -/
theorem opencv_unavailable_cex :
    alignAndCropModel false (.ok ⟨100, 100⟩) = .error .opencvNotLoaded ∧
    (runPipeline 400 200 (.error .opencvNotLoaded) (fun _ => false)
      (fun _ => 90)).fusionRan = true ∧
    (runPipeline 400 200 (.error .opencvNotLoaded) (fun _ => false)
      (fun _ => 90)).cells.length = 2 := by
  refine ⟨rfl, ?_, ?_⟩
  · rfl
  · rfl

/-- C7 amended: the capability-unavailable condition is the only hard
failure `alignAndCropImages` reports to its caller (every error inside
its `try` degrades to a `null` result), but the orchestrator catches
that failure and proceeds with the original images and dimensions, so
the scan continues exactly as it does on a `null` alignment result. -/
theorem opencv_unavailable_amended (ready : Bool)
    (body : Except AlignErr AlignOk) (e : AlignErr) :
    (alignAndCropModel ready body = .error e ↔
      ready = false ∧ e = .opencvNotLoaded) ∧
    (∀ (refW refH : ℕ) (sched : ℕ → Bool) (score : ℕ → ℤ),
      runPipeline refW refH (.error e) sched score =
        runPipeline refW refH (.ok none) sched score) := by
  constructor
  · unfold alignAndCropModel
    split_ifs with hr
    · rcases body with e' | r <;> simp [hr]
    · cases ready
      · constructor
        · intro h
          injection h with h'
          subst h'
          exact ⟨rfl, rfl⟩
        · rintro ⟨-, rfl⟩
          rfl
      · exact absurd rfl hr
  · intro refW refH sched score
    rfl

/-- An integer pixel rectangle as handed to `cv.Rect`. -/
structure IntRect where
  x : ℤ
  y : ℤ
  width : ℤ
  height : ℤ
  deriving DecidableEq, Repr

/-- `transformPoint` from `alignAndCropImages`: project `(x, y)` through
the row-major homography data `hD`; the scale falls back to 1.0 when
the projective depth `z` is zero. -/
def transformPoint (hD : Fin 9 → ℚ) (x y : ℚ) : ℚ × ℚ :=
  let z := hD 6 * x + hD 7 * y + hD 8
  let scale := if z ≠ 0 then 1 / z else 1
  ((hD 0 * x + hD 1 * y + hD 2) * scale, (hD 3 * x + hD 4 * y + hD 5) * scale)

/-- The safe-inner-crop computation of `alignAndCropImages` (STEP 2,
homography branch): project the test corners, take the inner inscribed
bounds, round to pixels, and fall back to the full-frame intersection of
the reference and the warped image when the crop is under 50 px in
either dimension. -/
def innerCropRect (refW refH testW testH warpedW warpedH : ℕ)
    (hD : Fin 9 → ℚ) : IntRect :=
  let c0 := transformPoint hD 0 0
  let c1 := transformPoint hD (testW : ℚ) 0
  let c2 := transformPoint hD (testW : ℚ) (testH : ℚ)
  let c3 := transformPoint hD 0 (testH : ℚ)
  let x1 := max 0 (max c0.1 c3.1)
  let y1 := max 0 (max c0.2 c1.2)
  let x2 := min (refW : ℚ) (min c1.1 c2.1)
  let y2 := min (refH : ℚ) (min c3.2 c2.2)
  let cropX := ⌈x1⌉
  let cropY := ⌈y1⌉
  let cropW := ⌊x2 - (cropX : ℚ)⌋
  let cropH := ⌊y2 - (cropY : ℚ)⌋
  if cropW < 50 ∨ cropH < 50 then
    ⟨0, 0, min (refW : ℤ) (warpedW : ℤ), min (refH : ℤ) (warpedH : ℤ)⟩
  else
    ⟨cropX, cropY, cropW, cropH⟩

/-- Claim-side crop left: the maximum of the two transformed left-side
corner x-coordinates (top-left and bottom-left), clamped ≥ 0. -/
def specCropLeft (hD : Fin 9 → ℚ) (testH : ℕ) : ℚ :=
  max 0 (max (transformPoint hD 0 0).1 (transformPoint hD 0 (testH : ℚ)).1)

/-- Claim-side crop top: the maximum of the two transformed top-side
corner y-coordinates (top-left and top-right), clamped ≥ 0. -/
def specCropTop (hD : Fin 9 → ℚ) (testW : ℕ) : ℚ :=
  max 0 (max (transformPoint hD 0 0).2 (transformPoint hD (testW : ℚ) 0).2)

/-- Claim-side crop right: the minimum of the two transformed right-side
corner x-coordinates (top-right and bottom-right), clamped to the
reference width. -/
def specCropRight (hD : Fin 9 → ℚ) (refW testW testH : ℕ) : ℚ :=
  min (refW : ℚ) (min (transformPoint hD (testW : ℚ) 0).1
    (transformPoint hD (testW : ℚ) (testH : ℚ)).1)

/-- Claim-side crop bottom: the minimum of the two transformed
bottom-side corner y-coordinates (bottom-left and bottom-right), clamped
to the reference height. -/
def specCropBottom (hD : Fin 9 → ℚ) (refH testW testH : ℕ) : ℚ :=
  min (refH : ℚ) (min (transformPoint hD 0 (testH : ℚ)).2
    (transformPoint hD (testW : ℚ) (testH : ℚ)).2)

/-- C5: when a homography is estimated, the safe inner crop has left =
the ceiling of the clamped maximum of the transformed left-corner x's,
top likewise, and extends to right = the floor of the clamped minimum of
the transformed right-corner x's, bottom likewise (`cropX + cropW =
⌊right⌋` since `⌊x2 - cropX⌋ = ⌊x2⌋ - cropX`); if that rectangle is
under 50 px in either dimension, the crop falls back to the full-frame
intersection at origin (0,0) sized by the minima of the two images'
dimensions. -/
theorem safe_crop_formula (refW refH testW testH warpedW warpedH : ℕ)
    (hD : Fin 9 → ℚ) :
    innerCropRect refW refH testW testH warpedW warpedH hD =
      if ⌊specCropRight hD refW testW testH⌋ - ⌈specCropLeft hD testH⌉ < 50 ∨
         ⌊specCropBottom hD refH testW testH⌋ - ⌈specCropTop hD testW⌉ < 50
      then ⟨0, 0, min (refW : ℤ) (warpedW : ℤ), min (refH : ℤ) (warpedH : ℤ)⟩
      else ⟨⌈specCropLeft hD testH⌉, ⌈specCropTop hD testW⌉,
            ⌊specCropRight hD refW testW testH⌋ - ⌈specCropLeft hD testH⌉,
            ⌊specCropBottom hD refH testW testH⌋ - ⌈specCropTop hD testW⌉⟩ := by
  simp only [innerCropRect, specCropLeft, specCropTop, specCropRight,
    specCropBottom, Int.floor_sub_int]

/-- The good-match target `Math.min(50, Math.max(10, matches * 0.15))`
computed on JS numbers. -/
def goodMatchTarget (n : ℕ) : ℚ :=
  min (50 : ℚ) (max 10 ((3 / 20) * n))

/-- The length of `matchArray.slice(0, goodMatchTarget n)`: the slice
end is truncated toward zero (it is ≥ 10, so toward zero is the floor)
and capped by the array length. -/
def goodMatchCount (n : ℕ) : ℕ :=
  min n (Int.toNat ⌊goodMatchTarget n⌋)

/-- The registration decision of `alignAndCropImages`: with ≥ 4 good
matches and a non-empty homography the test image is warped onto the
reference dimensions and the safe inner crop applies; otherwise
(`useOriginalTest`) no warp is applied, the warped buffer is a copy of
the original test image, and the crop is the full-frame intersection
`(0, 0, min(refW, testW), min(refH, testH))`.  The Bool records whether
a warp was applied. -/
def registerCrop (refW refH testW testH : ℕ) (nMatches : ℕ)
    (estH : Option (Fin 9 → ℚ)) : Bool × IntRect :=
  if 4 ≤ goodMatchCount nMatches then
    match estH with
    | some hD => (true, innerCropRect refW refH testW testH refW refH hD)
    | none =>
      (false, ⟨0, 0, min (refW : ℤ) (testW : ℤ), min (refH : ℤ) (testH : ℤ)⟩)
  else
    (false, ⟨0, 0, min (refW : ℤ) (testW : ℤ), min (refH : ℤ) (testH : ℤ)⟩)

lemma ten_le_goodMatchTarget (n : ℕ) : (10 : ℚ) ≤ goodMatchTarget n :=
  le_min (by norm_num) (le_max_left _ _)

lemma ten_le_floor_goodMatchTarget (n : ℕ) :
    10 ≤ Int.toNat ⌊goodMatchTarget n⌋ := by
  have h : (10 : ℤ) ≤ ⌊goodMatchTarget n⌋ := by
    rw [Int.le_floor]
    exact_mod_cast ten_le_goodMatchTarget n
  omega

/-- C6: whenever fewer than 4 good matches remain after sorting and
prefix selection, registration applies no warp and the shared crop
rectangle is the intersection of the reference and test bounds at
origin (0,0); moreover, since the selected prefix always targets at
least 10 matches, this happens exactly when fewer than 4 raw matches
exist. -/
theorem identity_fallback (refW refH testW testH nMatches : ℕ)
    (estH : Option (Fin 9 → ℚ)) (h : goodMatchCount nMatches < 4) :
    registerCrop refW refH testW testH nMatches estH =
      (false,
        ⟨0, 0, min (refW : ℤ) (testW : ℤ), min (refH : ℤ) (testH : ℤ)⟩) ∧
    (goodMatchCount nMatches < 4 ↔ nMatches < 4) := by
  have ht := ten_le_floor_goodMatchTarget nMatches
  constructor
  · unfold registerCrop
    rw [if_neg (by omega)]
  · unfold goodMatchCount at h ⊢
    omega

/-- Witness for C6: 3 raw matches on a 640×480 reference and a 600×400
test image fall back to the (0,0,600,400) intersection even though a
homography value is present. -/
theorem identity_fallback_witness :
    registerCrop 640 480 600 400 3 (some fun _ => 1) =
      (false,
        ⟨0, 0, min (640 : ℤ) (600 : ℤ), min (480 : ℤ) (400 : ℤ)⟩) ∧
    (goodMatchCount 3 < 4 ↔ 3 < 4) :=
  identity_fallback 640 480 600 400 3 (some fun _ => 1)
    (by with_unfolding_all decide)
